import Mathlib

/-!
Shallow embedding of the simple REST item registry (main.go).

The program keeps a single in-memory slice of items and serves four
operations over HTTP: list (GET /items), create (POST /items), get by id
(GET /items/id) and delete by id (DELETE /items/id).  The embedding below
models the store as a `List Item`, a request's query string as the list of
key/value pairs produced by Go's `r.URL.Query()`, a decoded POST body as
`Option ItemInput` (`none` for a body the JSON decoder rejects), the UUID
generator of `uuid.NewString()` as an explicit string argument, and
`time.Now()` as an explicit natural-number instant.  HTTP responses are
status codes (`Nat`) paired with the data the handler encodes; the encoding
step itself (JSON/YAML rendering) is not modelled, the body is the value
handed to the encoder.
-/

/-- Stored items (the `item` struct): `ID`, `Name`, and a creation
`Timestamp`; `time.Time` instants are modelled as naturals, with Go's
`Before` as `<` on them.  The zero value of the struct is `⟨"", "", 0⟩`. -/
structure Item where
  ID : String
  Name : String
  Timestamp : Nat
deriving DecidableEq, Repr

/-- Parsed query parameters (the `QueryParams` struct).  Go's field names
are `Format` and `Sort`; `Sort` is a Lean keyword, so the fields are in
lower case here. -/
structure QueryParams where
  format : String
  sort : String
deriving DecidableEq, Repr

/-- Decoded POST body for `addItem`.  Go decodes the JSON body into an
`item` value whose absent fields keep their zero values; the decoded
`Timestamp` is overwritten with `time.Now()` before the item is stored, so
only `ID` and `Name` of the body matter and only they are modelled. -/
structure ItemInput where
  ID : String
  Name : String
deriving DecidableEq, Repr

/-- Go's `<` on strings: lexicographic comparison of the byte sequences.
On UTF-8 encoded text, byte order agrees with code-point order, so it is
modelled as lexicographic comparison of the character lists. -/
def strLt : List Char → List Char → Bool
  | [], [] => false
  | [], _ :: _ => true
  | _ :: _, [] => false
  | x :: xs, y :: ys => if x < y then true else if y < x then false else strLt xs ys

/-- Go's `url.Values.Get`: the first value associated with the key in the
query, or the empty string when the key is absent. -/
def queryGet (q : List (String × String)) (key : String) : String :=
  match q.find? (fun p => p.1 == key) with
  | some p => p.2
  | none => ""

/-- The `parseQuery` function: reads the `format` and `sort` parameters
from the query and rejects a present value outside its allowed set.
Go's `r.URL.Query()` never reports an error (parse errors are discarded),
so the query arrives here as a list of key/value pairs; keys other than
`format` and `sort` are simply never read. -/
def parseQuery (q : List (String × String)) : Except String QueryParams :=
  let format := queryGet q "format"
  let sort := queryGet q "sort"
  if format != "" && format != "json" && format != "yaml" then
    Except.error "invalid value for format parameter"
  else if sort != "" && sort != "id" && sort != "timestamp" then
    Except.error "invalid value for sort parameter"
  else
    Except.ok ⟨format, sort⟩

/-- The `searchID` function: linear scan returning the index of the first
item whose `ID` equals `id`, the item itself, and a found flag; on a miss
it returns `(-1, zero item, false)`. -/
def searchID : List Item → String → Int × Item × Bool
  | [], _ => (-1, ⟨"", "", 0⟩, false)
  | it :: rest, id =>
    if it.ID == id then (0, it, true)
    else
      let r := searchID rest id
      if r.2.2 then (r.1 + 1, r.2.1, true) else (-1, r.2.1, false)

/-- The `getItemsByID` handler for GET /items/id: 404 when `searchID`
misses (checked before the query is parsed), 400 when `parseQuery` fails,
otherwise 200 with the found item as the response body.  The handler never
writes the store; the unchanged store is returned as the last component. -/
def getItemsByID (store : List Item) (q : List (String × String)) (id : String) :
    Nat × Option Item × List Item :=
  let r := searchID store id
  if !r.2.2 then (404, none, store)
  else
    match parseQuery q with
    | Except.error _ => (400, none, store)
    | Except.ok _ => (200, some r.2.1, store)

/-- The `deleteItemsByID` handler for DELETE /items/id: 404 when `searchID`
misses, otherwise the slice-splice removal
`items = append(items[:index], items[index+1:]...)` followed by 200. -/
def deleteItemsByID (store : List Item) (id : String) : Nat × List Item :=
  let r := searchID store id
  if !r.2.2 then (404, store)
  else (200, store.eraseIdx r.1.toNat)

/-- The `addItem` handler for POST /items.  A body the decoder rejects is
`none` and yields 400.  Then, in source order: empty `Name` yields 400; an
empty `ID` is replaced by the generated UUID (`genID` models the value of
`uuid.NewString()`) with no duplicate check; a non-empty `ID` already in
the store yields 409.  On success the timestamp is set to `now`
(`time.Now()`) and the item is appended, with status 201 and the new item
as the response body. -/
def addItem (store : List Item) (body : Option ItemInput) (genID : String) (now : Nat) :
    Nat × Option Item × List Item :=
  match body with
  | none => (400, none, store)
  | some input =>
    if input.Name == "" then (400, none, store)
    else if input.ID == "" then
      let newItem : Item := ⟨genID, input.Name, now⟩
      (201, some newItem, store ++ [newItem])
    else if (searchID store input.ID).2.2 then (409, none, store)
    else
      let newItem : Item := ⟨input.ID, input.Name, now⟩
      (201, some newItem, store ++ [newItem])

/-- Order in which `getItems` leaves the store for the default and the
explicit id sort: Go sorts with less function `items[i].ID > items[j].ID`,
so consecutive items satisfy not (left.ID < right.ID), a non-increasing
lexicographic id order. -/
def idGe (a b : Item) : Prop := strLt a.ID.data b.ID.data = false

/-- Order in which `getItems` leaves the store for the timestamp sort: Go
sorts with less function `items[i].Timestamp.Before(items[j].Timestamp)`,
so consecutive items are in non-decreasing creation order. -/
def tsLe (a b : Item) : Prop := a.Timestamp ≤ b.Timestamp

instance : DecidableRel idGe := fun _ _ => inferInstanceAs (Decidable (_ = false))

instance : DecidableRel tsLe := fun _ _ => inferInstanceAs (Decidable (_ ≤ _))

/-- Effect of the in-place `sort.Slice` calls in `getItems`: the store
reordered by timestamp when the sort parameter is `timestamp`, and by
descending id otherwise (sorting is modelled by a sort producing the same
sorted-permutation result as Go's unstable sort). -/
def sortItems (store : List Item) (sortKey : String) : List Item :=
  if sortKey == "timestamp" then store.insertionSort tsLe
  else store.insertionSort idGe

/-- Response of the `getItems` handler: a status, the list handed to the
encoder (when any), and the store as the handler leaves it. -/
structure ListResponse where
  status : Nat
  body : Option (List Item)
  store : List Item
deriving DecidableEq, Repr

/-- The `getItems` handler for GET /items: 204 with no body when the store
is empty (checked before the query is parsed), 400 when `parseQuery` fails,
otherwise it sorts the global slice in place and answers 200 with the
sorted list. -/
def getItems (store : List Item) (q : List (String × String)) : ListResponse :=
  if store.length == 0 then ⟨204, none, store⟩
  else
    match parseQuery q with
    | Except.error _ => ⟨400, none, store⟩
    | Except.ok params =>
      let sorted := sortItems store params.sort
      ⟨200, some sorted, sorted⟩

/-- The documented store invariant: no two items share an id. -/
def uniqueIds (store : List Item) : Prop := (store.map Item.ID).Nodup

instance (store : List Item) : Decidable (uniqueIds store) :=
  inferInstanceAs (Decidable (List.Nodup _))

/-! Helper lemmas. -/

theorem strLt_asymm : ∀ a b : List Char, strLt a b = true → strLt b a = false
  | [], [], h => by simp [strLt] at h
  | [], _ :: _, _ => rfl
  | _ :: _, [], h => by simp [strLt] at h
  | x :: xs, y :: ys, h => by
    by_cases hxy : x < y
    · simp [strLt, hxy, lt_asymm hxy]
    · by_cases hyx : y < x
      · simp [strLt, hxy, hyx] at h
      · simp only [strLt, if_neg hxy, if_neg hyx] at h ⊢
        exact strLt_asymm xs ys h

theorem strLt_false_trans :
    ∀ a b c : List Char, strLt a b = false → strLt b c = false → strLt a c = false
  | [], [], _, _, h2 => h2
  | [], _ :: _, _, h1, _ => by simp [strLt] at h1
  | _ :: _, _, [], _, _ => rfl
  | _ :: _, [], _ :: _, _, h2 => by simp [strLt] at h2
  | x :: xs, y :: ys, z :: zs, h1, h2 => by
    have hxy : ¬ x < y := fun h => by simp [strLt, h] at h1
    have hyz : ¬ y < z := fun h => by simp [strLt, h] at h2
    have hyx : y ≤ x := le_of_not_lt hxy
    have hzy : z ≤ y := le_of_not_lt hyz
    have hxz : ¬ x < z := not_lt.mpr (hzy.trans hyx)
    by_cases hzx : z < x
    · simp [strLt, hxz, hzx]
    · have hxez : x = z := le_antisymm (le_of_not_lt hzx) (hzy.trans hyx)
      have hyx2 : ¬ y < x := not_lt.mpr (hxez.le.trans hzy)
      have hzy2 : ¬ z < y := not_lt.mpr (hyx.trans hxez.le)
      simp only [strLt, if_neg hxy, if_neg hyx2] at h1
      simp only [strLt, if_neg hyz, if_neg hzy2] at h2
      simp only [strLt, if_neg hxz, if_neg hzx]
      exact strLt_false_trans xs ys zs h1 h2

theorem searchID_spec : ∀ (l : List Item) (id : String),
    ((searchID l id).2.2 = true →
      ∃ pre post, l = pre ++ (searchID l id).2.1 :: post ∧
        (∀ x ∈ pre, x.ID ≠ id) ∧ (searchID l id).2.1.ID = id ∧
        (searchID l id).1 = pre.length)
  ∧ ((searchID l id).2.2 = false → ∀ x ∈ l, x.ID ≠ id)
  | [], id => by
    constructor
    · intro h; simp [searchID] at h
    · intro _ x hx; simp at hx
  | it :: rest, id => by
    by_cases h : it.ID = id
    · constructor
      · intro _
        exact ⟨[], rest, by simp [searchID, h], by simp, by simp [searchID, h], by simp [searchID, h]⟩
      · intro hf; simp [searchID, h] at hf
    · have ih := searchID_spec rest id
      cases hr : (searchID rest id).2.2 with
      | false =>
        constructor
        · intro ht
          simp [searchID, h, hr] at ht
        · intro _ x hx
          rcases List.mem_cons.mp hx with rfl | hx
          · exact h
          · exact ih.2 hr x hx
      | true =>
        constructor
        · intro _
          obtain ⟨pre, post, heq, hpre, hid, hidx⟩ := ih.1 hr
          refine ⟨it :: pre, post, ?_, ?_, ?_, ?_⟩
          · simpa [searchID, h, hr] using heq
          · intro x hx
            rcases List.mem_cons.mp hx with rfl | hx
            · exact h
            · exact hpre x hx
          · simpa [searchID, h, hr] using hid
          · simp [searchID, h, hr, hidx]
        · intro hf
          simp [searchID, h, hr] at hf

theorem searchID_found_of_mem {l : List Item} {it : Item} {id : String}
    (hm : it ∈ l) (hid : it.ID = id) : (searchID l id).2.2 = true := by
  cases hf : (searchID l id).2.2 with
  | false => exact absurd hid ((searchID_spec l id).2 hf it hm)
  | true => rfl

theorem mem_of_eq_append_cons {α : Type} {l pre post : List α} {x : α}
    (h : l = pre ++ x :: post) : x ∈ l := by
  subst h
  exact List.mem_append.mpr (Or.inr (List.mem_cons_self _ _))

theorem searchID_item_mem {l : List Item} {id : String}
    (h : (searchID l id).2.2 = true) :
    (searchID l id).2.1 ∈ l ∧ (searchID l id).2.1.ID = id := by
  obtain ⟨pre, post, heq, _, hid, _⟩ := (searchID_spec l id).1 h
  exact ⟨mem_of_eq_append_cons heq, hid⟩

theorem uniqueIds_eq {store : List Item} {a b : Item}
    (h : uniqueIds store) (ha : a ∈ store) (hb : b ∈ store) (hid : a.ID = b.ID) : a = b :=
  List.inj_on_of_nodup_map h ha hb hid

theorem eraseIdx_append_cons {α : Type} (pre : List α) (x : α) (post : List α) :
    (pre ++ x :: post).eraseIdx pre.length = pre ++ post := by
  induction pre with
  | nil => rfl
  | cons y ys ih => simp [List.eraseIdx, ih]

theorem getItemsByID_of_not_found {store : List Item} {id : String}
    (h : ∀ x ∈ store, x.ID ≠ id) (q : List (String × String)) :
    getItemsByID store q id = (404, none, store) := by
  have hf : (searchID store id).2.2 = false := by
    cases hf : (searchID store id).2.2 with
    | false => rfl
    | true => exact absurd (searchID_item_mem hf).2 (h _ (searchID_item_mem hf).1)
  simp [getItemsByID, hf]

theorem sortItems_perm (store : List Item) (key : String) :
    (sortItems store key).Perm store := by
  unfold sortItems
  split
  · exact List.perm_insertionSort _ _
  · exact List.perm_insertionSort _ _

theorem sortItems_sorted_ts (store : List Item) :
    (sortItems store "timestamp").Sorted tsLe := by
  haveI : IsTotal Item tsLe := ⟨fun a b => Nat.le_total a.Timestamp b.Timestamp⟩
  haveI : IsTrans Item tsLe := ⟨fun _ _ _ h1 h2 => Nat.le_trans h1 h2⟩
  simpa [sortItems] using List.sorted_insertionSort tsLe store

theorem sortItems_sorted_id (store : List Item) (key : String) (h : key ≠ "timestamp") :
    (sortItems store key).Sorted idGe := by
  haveI : IsTotal Item idGe := ⟨fun a b => by
    cases hab : strLt a.ID.data b.ID.data with
    | false => exact Or.inl hab
    | true => exact Or.inr (strLt_asymm _ _ hab)⟩
  haveI : IsTrans Item idGe := ⟨fun _ _ _ h1 h2 => strLt_false_trans _ _ _ h1 h2⟩
  have hkey : (key == "timestamp") = false := by
    cases hb : key == "timestamp" with
    | false => rfl
    | true => exact absurd (by simpa using hb) h
  simpa [sortItems, hkey] using List.sorted_insertionSort idGe store

theorem getItems_store_perm (store : List Item) (q : List (String × String)) :
    ((getItems store q).store).Perm store := by
  simp only [getItems]
  split
  · exact List.Perm.refl _
  · split
    · exact List.Perm.refl _
    · exact sortItems_perm _ _

theorem getItemsByID_store (store : List Item) (q : List (String × String)) (id : String) :
    (getItemsByID store q id).2.2 = store := by
  simp only [getItemsByID]
  split
  · rfl
  · split <;> rfl

theorem parseQuery_ok_fields {q : List (String × String)} {p : QueryParams}
    (h : parseQuery q = Except.ok p) :
    p.format = queryGet q "format" ∧ p.sort = queryGet q "sort" := by
  simp only [parseQuery] at h
  split at h
  · exact absurd h (by simp)
  · split at h
    · exact absurd h (by simp)
    · cases h
      exact ⟨rfl, rfl⟩

theorem queryGet_cons_ne {k key : String} (v : String) (q : List (String × String))
    (h : k ≠ key) : queryGet ((k, v) :: q) key = queryGet q key := by
  simp only [queryGet, List.find?]
  have hb : ((k, v).1 == key) = false := by simpa using h
  rw [hb]

theorem nodup_map_append_cons {α β : Type} (f : α → β) (pre post : List α) (m : α)
    (h : ((pre ++ m :: post).map f).Nodup) : ∀ x ∈ post, f x ≠ f m := by
  intro x hx hfx
  rw [List.map_append, List.map_cons] at h
  have h2 := h.of_append_right
  rw [List.nodup_cons] at h2
  exact h2.1 (List.mem_map.mpr ⟨x, hx, hfx⟩)

/-! Claim theorems. -/

/-- Claim C1, counterexample: the claim as stated is false.  A GET /items
request sorts the global slice in place, so a store that is not already in
descending id order is reordered: with the store holding ids a then b, the
default id sort leaves the stored collection as b then a. -/
theorem C1_counterexample :
    (getItems [⟨"a", "A", 5⟩, ⟨"b", "B", 1⟩] []).store ≠ [⟨"a", "A", 5⟩, ⟨"b", "B", 1⟩] := by
  decide

/-- Claim C1, amended: for every store state and every GET /items request,
the List operation leaves the underlying stored collection unchanged as a
multiset (no item is added, removed or edited), but the in-place sort may
permute the stored order. -/
theorem C1_getItems_store_perm (store : List Item) (q : List (String × String)) :
    ((getItems store q).store).Perm store :=
  getItems_store_perm store q

/-- Claim C2, counterexample: the claim as stated is false.  The query is
read through Go's url.Values, so an unrecognized key and a parameter
without a value are both tolerated: neither query below makes the
validator fail. -/
theorem C2_counterexample :
    parseQuery [("bogus", "x")] = Except.ok ⟨"", ""⟩ ∧
    parseQuery [("format", "")] = Except.ok ⟨"", ""⟩ :=
  ⟨rfl, rfl⟩

/-- Claim C2, amended: the query validator fails exactly when the format
or the sort parameter is present with a value outside its allowed set
(json/yaml, id/timestamp); an unrecognized key never changes the result,
and a parameter without a value reads as the empty string, that is, as
absent. -/
theorem C2_parseQuery_spec (q : List (String × String)) :
    ((∃ e, parseQuery q = Except.error e) ↔
      ((queryGet q "format" ≠ "" ∧ queryGet q "format" ≠ "json" ∧
          queryGet q "format" ≠ "yaml") ∨
        (queryGet q "sort" ≠ "" ∧ queryGet q "sort" ≠ "id" ∧
          queryGet q "sort" ≠ "timestamp")))
  ∧ (∀ k v, k ≠ "format" → k ≠ "sort" → parseQuery ((k, v) :: q) = parseQuery q) := by
  constructor
  · have hA : ((queryGet q "format" != "") && (queryGet q "format" != "json") &&
        (queryGet q "format" != "yaml")) = true ↔
        (queryGet q "format" ≠ "" ∧ queryGet q "format" ≠ "json" ∧
          queryGet q "format" ≠ "yaml") := by
      simp [Bool.and_eq_true, and_assoc]
    have hB : ((queryGet q "sort" != "") && (queryGet q "sort" != "id") &&
        (queryGet q "sort" != "timestamp")) = true ↔
        (queryGet q "sort" ≠ "" ∧ queryGet q "sort" ≠ "id" ∧
          queryGet q "sort" ≠ "timestamp") := by
      simp [Bool.and_eq_true, and_assoc]
    simp only [parseQuery]
    by_cases hf : ((queryGet q "format" != "") && (queryGet q "format" != "json") &&
        (queryGet q "format" != "yaml")) = true
    · rw [if_pos hf]
      exact ⟨fun _ => Or.inl (hA.mp hf), fun _ => ⟨_, rfl⟩⟩
    · rw [if_neg hf]
      by_cases hs : ((queryGet q "sort" != "") && (queryGet q "sort" != "id") &&
          (queryGet q "sort" != "timestamp")) = true
      · rw [if_pos hs]
        exact ⟨fun _ => Or.inr (hB.mp hs), fun _ => ⟨_, rfl⟩⟩
      · rw [if_neg hs]
        constructor
        · rintro ⟨e, he⟩
          exact absurd he (by simp)
        · rintro (h | h)
          · exact absurd (hA.mpr h) hf
          · exact absurd (hB.mpr h) hs
  · intro k v hk1 hk2
    simp only [parseQuery, queryGet_cons_ne v q hk1, queryGet_cons_ne v q hk2]

/-- Claim C2, witness for the amended theorem: adding an unrecognized key
to a valid query leaves the validator's result unchanged. -/
theorem C2_witness :
    parseQuery [("bogus", "1"), ("sort", "id")] = parseQuery [("sort", "id")] :=
  (C2_parseQuery_spec [("sort", "id")]).2 "bogus" "1" (by decide) (by decide)

/-- Claim C3, counterexample: the claim as stated is false.  The empty
name check runs before the duplicate id check, so a Create whose explicit
id x duplicates a stored item but whose name is empty fails with 400, not
with 409. -/
theorem C3_counterexample :
    addItem [⟨"x", "A", 0⟩] (some ⟨"x", ""⟩) "g" 1 = (400, none, [⟨"x", "A", 0⟩]) ∧
    (400 : Nat) ≠ 409 := by
  decide

/-- Claim C3, amended: for every store state and every Create request with
a non-empty name whose explicit non-empty id equals the id of a stored
item, Create fails with conflict 409 and leaves the store unchanged; when
the name is empty the request instead fails earlier with validation
status 400. -/
theorem C3_addItem_conflict (store : List Item) (input : ItemInput) (genID : String)
    (now : Nat) (hname : input.Name ≠ "") (hid : input.ID ≠ "")
    (hdup : ∃ it ∈ store, it.ID = input.ID) :
    addItem store (some input) genID now = (409, none, store) := by
  obtain ⟨it, hmem, hit⟩ := hdup
  have hf : (searchID store input.ID).2.2 = true := searchID_found_of_mem hmem hit
  simp [addItem, hname, hid, hf]

/-- Claim C3, witness: a duplicate explicit id with a non-empty name is
answered with 409 and an unchanged store. -/
theorem C3_witness :
    addItem [⟨"x", "A", 0⟩] (some ⟨"x", "C"⟩) "g" 1 = (409, none, [⟨"x", "A", 0⟩]) :=
  C3_addItem_conflict _ _ _ _ (by decide) (by decide) ⟨⟨"x", "A", 0⟩, by decide, rfl⟩

/-- Claim C4, counterexample: the claim as stated is false.  The empty
store check runs before the query is parsed, so a GET /items with an
invalid sort value on an empty store is answered 204, not 400. -/
theorem C4_counterexample :
    (getItems [] [("sort", "bogus")]).status = 204 ∧
    (getItems [] [("sort", "bogus")]).status ≠ 400 := by
  decide

/-- Claim C4, amended: a GET /items on an empty store is answered 204 with
no body regardless of the query; on a non-empty store an invalid sort or
format value is answered 400, and a valid query 200 with the encoded
(sorted) list as the body. -/
theorem C4_getItems_status (store : List Item) (q : List (String × String)) :
    (store = [] → getItems store q = ⟨204, none, []⟩)
  ∧ (store ≠ [] → (∃ e, parseQuery q = Except.error e) →
      getItems store q = ⟨400, none, store⟩)
  ∧ (store ≠ [] → (∃ p, parseQuery q = Except.ok p) →
      (getItems store q).status = 200 ∧
      (getItems store q).body = some ((getItems store q).store)) := by
  refine ⟨?_, ?_, ?_⟩
  · rintro rfl
    rfl
  · rintro hne ⟨e, he⟩
    have hlen : (store.length == 0) = false := by
      cases store with
      | nil => exact absurd rfl hne
      | cons a l => rfl
    simp [getItems, hlen, he]
  · rintro hne ⟨p, hp⟩
    have hlen : (store.length == 0) = false := by
      cases store with
      | nil => exact absurd rfl hne
      | cons a l => rfl
    simp [getItems, hlen, hp]

/-- Claim C4, witness: a non-empty store with an invalid sort value is
answered 400 with the store untouched. -/
theorem C4_witness :
    getItems [⟨"a", "A", 0⟩] [("sort", "bogus")] = ⟨400, none, [⟨"a", "A", 0⟩]⟩ :=
  (C4_getItems_status _ _).2.1 (by decide) ⟨"invalid value for sort parameter", rfl⟩

/-- Claim C9: for every store state and every Create request whose decoded
body has an empty name, Create fails with validation status 400 and leaves
the store unchanged, whatever the id field holds. -/
theorem C9_addItem_empty_name (store : List Item) (input : ItemInput) (genID : String)
    (now : Nat) (h : input.Name = "") :
    addItem store (some input) genID now = (400, none, store) := by
  simp [addItem, h]

/-- Claim C9, witness: an empty name with a supplied id is rejected with
400 and the store unchanged. -/
theorem C9_witness :
    addItem [⟨"x", "A", 0⟩] (some ⟨"y", ""⟩) "g" 1 = (400, none, [⟨"x", "A", 0⟩]) :=
  C9_addItem_empty_name _ _ _ _ rfl

/-- Claim C10: every failing Create request (malformed body, empty name,
or duplicate supplied id) leaves the stored collection exactly unchanged,
and its status is 400 or 409; both checks run before the timestamp is set
and the item appended. -/
theorem C10_addItem_failure_frame (store : List Item) (body : Option ItemInput)
    (genID : String) (now : Nat) (h : (addItem store body genID now).1 ≠ 201) :
    (addItem store body genID now).2.2 = store ∧
    ((addItem store body genID now).1 = 400 ∨ (addItem store body genID now).1 = 409) := by
  cases body with
  | none => exact ⟨rfl, Or.inl rfl⟩
  | some input =>
    by_cases hn : (input.Name == "") = true
    · simp [addItem, hn]
    · by_cases hi : (input.ID == "") = true
      · exact absurd (by simp [addItem, hn, hi]) h
      · by_cases hf2 : (searchID store input.ID).2.2 = true
        · simp [addItem, hn, hi, hf2]
        · exact absurd (by simp [addItem, hn, hi, hf2]) h

/-- Claim C10, witness: the duplicate-id failure leaves the store exactly
as it was. -/
theorem C10_witness :
    (addItem [⟨"x", "A", 0⟩] (some ⟨"x", "C"⟩) "g" 1).2.2 = [⟨"x", "A", 0⟩] ∧
    ((addItem [⟨"x", "A", 0⟩] (some ⟨"x", "C"⟩) "g" 1).1 = 400 ∨
      (addItem [⟨"x", "A", 0⟩] (some ⟨"x", "C"⟩) "g" 1).1 = 409) :=
  C10_addItem_failure_frame [⟨"x", "A", 0⟩] (some ⟨"x", "C"⟩) "g" 1 (by decide)

/-- Claim C5, counterexample: the claim as stated is false.  The generated
id of a Create with no supplied id is never checked against the store, so
when the generator returns a string that a caller already supplied as an
explicit id (possible, since arbitrary id strings are accepted), the
appended item duplicates it and the unique-id invariant breaks. -/
theorem C5_counterexample :
    uniqueIds [⟨"g", "A", 0⟩] ∧
    addItem [⟨"g", "A", 0⟩] (some ⟨"", "B"⟩) "g" 1 =
      (201, some ⟨"g", "B", 1⟩, [⟨"g", "A", 0⟩, ⟨"g", "B", 1⟩]) ∧
    ¬ uniqueIds [⟨"g", "A", 0⟩, ⟨"g", "B", 1⟩] := by
  refine ⟨by decide, by decide, by decide⟩

/-- Claim C5, amended: the unique-id invariant holds of the empty initial
store and is preserved by List, Get, Delete, and Create, where for a
Create with no supplied id the preservation holds under the assumption
that the generated id differs from every stored id (the code performs no
duplicate check on generated ids and only probabilistic UUID freshness
backs it); under that assumption such a Create appends exactly the item
carrying the generated id. -/
theorem C5_uniqueIds_invariant :
    uniqueIds ([] : List Item)
  ∧ (∀ store q, uniqueIds store → uniqueIds (getItems store q).store)
  ∧ (∀ store q id, uniqueIds store → uniqueIds (getItemsByID store q id).2.2)
  ∧ (∀ store id, uniqueIds store → uniqueIds (deleteItemsByID store id).2)
  ∧ (∀ store input genID now, uniqueIds store →
      (input.ID = "" → ∀ x ∈ store, x.ID ≠ genID) →
      uniqueIds (addItem store (some input) genID now).2.2)
  ∧ (∀ store input genID now, input.ID = "" → input.Name ≠ "" →
      (addItem store (some input) genID now).2.2 =
        store ++ [⟨genID, input.Name, now⟩]) := by
  refine ⟨by simp [uniqueIds], ?_, ?_, ?_, ?_, ?_⟩
  · intro store q hu
    exact ((getItems_store_perm store q).map Item.ID).nodup_iff.mpr hu
  · intro store q id hu
    rw [getItemsByID_store]
    exact hu
  · intro store id hu
    simp only [deleteItemsByID]
    by_cases hf : (searchID store id).2.2 = true
    · rw [hf]
      exact List.Nodup.sublist ((store.eraseIdx_sublist _).map _) hu
    · rw [Bool.not_eq_true] at hf
      rw [hf]
      exact hu
  · intro store input genID now hu hfresh
    by_cases hn : (input.Name == "") = true
    · simpa [addItem, hn] using hu
    · by_cases hi : (input.ID == "") = true
      · have hfr := hfresh (by simpa using hi)
        simp only [addItem, hn, hi, Bool.false_eq_true, if_false, if_true]
        rw [uniqueIds, List.map_append]
        refine List.Nodup.append hu (List.nodup_singleton _) ?_
        intro a ha hb
        rw [List.map_singleton, List.mem_singleton] at hb
        obtain ⟨x, hx, rfl⟩ := List.mem_map.mp ha
        exact hfr x hx hb
      · by_cases hf2 : (searchID store input.ID).2.2 = true
        · simpa [addItem, hn, hi, hf2] using hu
        · have hnotin : ∀ x ∈ store, x.ID ≠ input.ID :=
            (searchID_spec store input.ID).2 (by simpa using hf2)
          simp only [addItem, hn, hi, hf2, Bool.false_eq_true, if_false, if_true]
          rw [uniqueIds, List.map_append]
          refine List.Nodup.append hu (List.nodup_singleton _) ?_
          intro a ha hb
          rw [List.map_singleton, List.mem_singleton] at hb
          obtain ⟨x, hx, rfl⟩ := List.mem_map.mp ha
          exact hnotin x hx hb
  · intro store input genID now hid hname
    simp [addItem, hname, hid]

/-- Claim C5, witness: a Create with no supplied id and a fresh generated
id preserves the unique-id invariant. -/
theorem C5_witness :
    uniqueIds (addItem [⟨"a", "A", 0⟩] (some ⟨"", "B"⟩) "b" 1).2.2 :=
  C5_uniqueIds_invariant.2.2.2.2.1 [⟨"a", "A", 0⟩] ⟨"", "B"⟩ "b" 1 (by decide)
    (fun _ => by decide)

/-- Claim C6: the list handed to the encoder by GET /items is in
non-increasing lexicographic id order under the default and the explicit
id sort, and in non-decreasing creation-timestamp order under the
timestamp sort. -/
theorem C6_getItems_sorted (store : List Item) (q : List (String × String))
    (l : List Item) (hbody : (getItems store q).body = some l) :
    (queryGet q "sort" = "timestamp" → l.Sorted tsLe)
  ∧ (queryGet q "sort" ≠ "timestamp" → l.Sorted idGe) := by
  have h := hbody
  simp only [getItems] at h
  by_cases hlen : (store.length == 0) = true
  · rw [if_pos hlen] at h
    simp at h
  · rw [if_neg hlen] at h
    cases hpq : parseQuery q with
    | error e =>
      rw [hpq] at h
      simp at h
    | ok p =>
      rw [hpq] at h
      have hl : some (sortItems store p.sort) = some l := h
      have hl2 : sortItems store p.sort = l := Option.some_inj.mp hl
      have hs := (parseQuery_ok_fields hpq).2
      subst hl2
      rw [← hs]
      constructor
      · intro ht
        rw [ht]
        exact sortItems_sorted_ts store
      · intro hne
        exact sortItems_sorted_id store p.sort hne

/-- Claim C6, witness: with the sort parameter absent the returned list is
in non-increasing id order. -/
theorem C6_witness :
    (getItems [⟨"a", "A", 5⟩, ⟨"b", "B", 1⟩] []).body =
      some [⟨"b", "B", 1⟩, ⟨"a", "A", 5⟩] ∧
    List.Sorted idGe [⟨"b", "B", 1⟩, ⟨"a", "A", 5⟩] :=
  ⟨by decide,
    (C6_getItems_sorted [⟨"a", "A", 5⟩, ⟨"b", "B", 1⟩] [] _ (by decide)).2 (by decide)⟩

/-- Claim C7: a GET /items/id is answered 404 exactly when no stored item
has the requested id (checked by exact string match before the query is
read), and under the unique-id invariant a stored item with that id is
returned as the response body whenever the query parses. -/
theorem C7_getItemsByID_spec (store : List Item) (q : List (String × String))
    (id : String) :
    ((∀ x ∈ store, x.ID ≠ id) → getItemsByID store q id = (404, none, store))
  ∧ (∀ it, uniqueIds store → it ∈ store → it.ID = id →
      (∃ p, parseQuery q = Except.ok p) →
      getItemsByID store q id = (200, some it, store)) := by
  constructor
  · intro h
    exact getItemsByID_of_not_found h q
  · rintro it hu hmem hid ⟨p, hp⟩
    have hf := searchID_found_of_mem hmem hid
    have hitem := searchID_item_mem hf
    have heq : (searchID store id).2.1 = it :=
      uniqueIds_eq hu hitem.1 hmem (hitem.2.trans hid.symm)
    simp [getItemsByID, hf, hp, heq]

/-- Claim C7, witness: a present id is returned with 200; an absent id on
the same store is refused with 404. -/
theorem C7_witness :
    getItemsByID [⟨"x", "A", 0⟩] [] "x" = (200, some ⟨"x", "A", 0⟩, [⟨"x", "A", 0⟩]) :=
  (C7_getItemsByID_spec [⟨"x", "A", 0⟩] [] "x").2 ⟨"x", "A", 0⟩ (by decide) (by decide)
    rfl ⟨⟨"", ""⟩, rfl⟩

/-- Claim C8: on a store satisfying the unique-id invariant, a successful
Delete(id) removes exactly the single matching item, leaving every other
item in place in its relative order, and an immediately following Get(id)
fails with 404. -/
theorem C8_delete_then_get (store : List Item) (q : List (String × String))
    (id : String) (hu : uniqueIds store) (hex : ∃ it ∈ store, it.ID = id) :
    ∃ pre it post, store = pre ++ it :: post ∧ it.ID = id ∧
      (∀ x ∈ pre, x.ID ≠ id) ∧ (∀ x ∈ post, x.ID ≠ id) ∧
      deleteItemsByID store id = (200, pre ++ post) ∧
      (getItemsByID (pre ++ post) q id).1 = 404 := by
  obtain ⟨it0, hmem, hit0⟩ := hex
  have hf := searchID_found_of_mem hmem hit0
  obtain ⟨pre, post, heq, hpre, hid, hidx⟩ := (searchID_spec store id).1 hf
  have hu2 : ((pre ++ (searchID store id).2.1 :: post).map Item.ID).Nodup := by
    rw [uniqueIds] at hu
    rw [heq] at hu
    exact hu
  have hpost : ∀ x ∈ post, x.ID ≠ id := by
    intro x hx hxid
    exact nodup_map_append_cons Item.ID pre post _ hu2 x hx (hxid.trans hid.symm)
  have hno : ∀ x ∈ pre ++ post, x.ID ≠ id := by
    intro x hx
    rcases List.mem_append.mp hx with hx | hx
    · exact hpre x hx
    · exact hpost x hx
  refine ⟨pre, (searchID store id).2.1, post, heq, hid, hpre, hpost, ?_, ?_⟩
  · simp only [deleteItemsByID, hf, Bool.not_true, Bool.false_eq_true, if_false]
    have htoNat : (searchID store id).1.toNat = pre.length := by
      rw [hidx]
      simp
    rw [htoNat, heq, eraseIdx_append_cons]
  · rw [getItemsByID_of_not_found hno q]

/-- Claim C8, witness: deleting the only item with id x empties the store
and a following Get of x is answered 404. -/
theorem C8_witness :
    ∃ pre it post, ([⟨"x", "A", 0⟩] : List Item) = pre ++ it :: post ∧ it.ID = "x" ∧
      (∀ x ∈ pre, x.ID ≠ "x") ∧ (∀ x ∈ post, x.ID ≠ "x") ∧
      deleteItemsByID [⟨"x", "A", 0⟩] "x" = (200, pre ++ post) ∧
      (getItemsByID (pre ++ post) [] "x").1 = 404 :=
  C8_delete_then_get [⟨"x", "A", 0⟩] [] "x" (by decide) ⟨⟨"x", "A", 0⟩, by decide, rfl⟩
